import Mathlib

/-!
# Verification of the lagoon-cloud route-schedule / visit-completion core

Shallow embedding of the scheduling, reconciliation and propagation code of
`server/server.js` and the PostgreSQL data-access layer (`db-postgres.js`,
provided as `src/unnamed/part_002`).  Database tables are modelled as Lean
lists of row structures, SQL statements as pure functions on a `DB` state,
and the JavaScript `Date` arithmetic as arithmetic on milliseconds since the
Unix epoch together with a proleptic-Gregorian civil-date conversion
(ECMAScript `YearFromTime` / `MonthFromTime` / `DateFromTime` semantics).
-/

namespace Lagoon

/-- Milliseconds per day, as used by ECMAScript `Date` (`msPerDay = 86400000`). -/
def msPerDay : Nat := 86400000

/-- The business-timezone offset hardcoded in the source:
`const cairoOffset = 2 * 60 * 60 * 1000; // UTC+2`. -/
def cairoOffsetMs : Nat := 7200000

/-- Proleptic-Gregorian leap-year rule, as in ECMAScript `InLeapYear` /
`DaysInYear`: divisible by 4, except century years not divisible by 400. -/
def isLeap (y : Nat) : Bool :=
  y % 4 == 0 && (y % 100 != 0 || y % 400 == 0)

/-- Length of month `m` (1..12) in a year whose leap flag is `leap`. -/
def daysInMonthB (leap : Bool) (m : Nat) : Nat :=
  match m with
  | 1 => 31
  | 2 => if leap then 29 else 28
  | 3 => 31
  | 4 => 30
  | 5 => 31
  | 6 => 30
  | 7 => 31
  | 8 => 31
  | 9 => 30
  | 10 => 31
  | 11 => 30
  | 12 => 31
  | _ => 31

/-- A civil (calendar) date.  The JavaScript code stores and compares dates as
`YYYY-MM-DD` strings; for 4-digit years string equality coincides with
equality of the (year, month, day) triple, so we use the triple. -/
structure CivilDate where
  year : Nat
  month : Nat
  day : Nat
deriving DecidableEq

def daysInMonth (y m : Nat) : Nat := daysInMonthB (isLeap y) m

/-- Calendar successor of a civil date (the next calendar day, rolling over
month ends and year ends according to the Gregorian month lengths). -/
def nextDay (c : CivilDate) : CivilDate :=
  if c.day < daysInMonth c.year c.month then ⟨c.year, c.month, c.day + 1⟩
  else if c.month < 12 then ⟨c.year, c.month + 1, 1⟩
  else ⟨c.year + 1, 1, 1⟩

/-- Civil date of day number `n` = days since the ECMAScript epoch 1970-01-01.
This models the date part of `Date.prototype.toISOString` (ECMAScript
`YearFromTime`/`MonthFromTime`/`DateFromTime`): day 0 is 1970-01-01 and each
following day number is the calendar successor under the Gregorian rules. -/
def civilOfDays : Nat → CivilDate
  | 0 => ⟨1970, 1, 1⟩
  | n + 1 => nextDay (civilOfDays n)

/-- Well-formed civil dates reachable from the epoch. -/
def CivilDate.Wf (c : CivilDate) : Prop :=
  1970 ≤ c.year ∧ 1 ≤ c.month ∧ c.month ≤ 12 ∧ 1 ≤ c.day ∧
    c.day ≤ daysInMonth c.year c.month

lemma daysInMonthB_pos (l : Bool) (m : Nat) : 1 ≤ daysInMonthB l m := by
  unfold daysInMonthB
  rcases m with _|_|_|_|_|_|_|_|_|_|_|_|_|m <;> cases l <;> simp

lemma nextDay_wf {c : CivilDate} (h : c.Wf) : (nextDay c).Wf := by
  obtain ⟨hy, hm1, hm2, hd1, hd2⟩ := h
  unfold nextDay
  split_ifs with h1 h2 <;> unfold CivilDate.Wf <;> dsimp only <;>
    refine ⟨?_, ?_, ?_, ?_, ?_⟩
  · omega
  · omega
  · omega
  · omega
  · omega
  · omega
  · omega
  · omega
  · omega
  · exact daysInMonthB_pos _ _
  · omega
  · omega
  · omega
  · omega
  · exact daysInMonthB_pos _ _

lemma civilOfDays_succ (n : Nat) : civilOfDays (n + 1) = nextDay (civilOfDays n) :=
  rfl

lemma civilOfDays_wf (n : Nat) : (civilOfDays n).Wf := by
  induction n with
  | zero =>
    show (⟨1970, 1, 1⟩ : CivilDate).Wf
    unfold CivilDate.Wf
    dsimp only
    exact ⟨le_refl _, le_refl _, by omega, le_refl _, daysInMonthB_pos _ _⟩
  | succ n ih => exact nextDay_wf ih

/-- Number of days in year `y`. -/
def yearLen (y : Nat) : Nat := if isLeap y then 366 else 365

/-- Days from 1970-01-01 to the start of year `1970 + k`. -/
def daysToYearAux : Nat → Nat
  | 0 => 0
  | k + 1 => daysToYearAux k + yearLen (1970 + k)

/-- Days from 1970-01-01 to the start of year `y` (for `y ≥ 1970`). -/
def daysToYear (y : Nat) : Nat := daysToYearAux (y - 1970)

lemma daysToYearAux_succ (k : Nat) :
    daysToYearAux (k + 1) = daysToYearAux k + yearLen (1970 + k) := rfl

/-- Days from the start of a year (with leap flag `l`) to the start of month
`m`. -/
def cumDaysB (l : Bool) : Nat → Nat
  | 0 => 0
  | 1 => 0
  | m + 2 => cumDaysB l (m + 1) + daysInMonthB l (m + 1)

/-- Day number (days since 1970-01-01) of a well-formed civil date.  Used as
the independent reference for weekday computation and for injectivity of the
day-number-to-date conversion. -/
def daysFromCivil (c : CivilDate) : Nat :=
  daysToYear c.year + cumDaysB (isLeap c.year) c.month + (c.day - 1)

lemma cumDaysB_succ (l : Bool) (m : Nat) (h : 1 ≤ m) :
    cumDaysB l (m + 1) = cumDaysB l m + daysInMonthB l m := by
  rcases m with _|m
  · omega
  · rfl

lemma cumDaysB_year (l : Bool) :
    cumDaysB l 12 + daysInMonthB l 12 = (if l then 366 else 365) := by
  cases l <;> decide

lemma daysFromCivil_nextDay {c : CivilDate} (h : c.Wf) :
    daysFromCivil (nextDay c) = daysFromCivil c + 1 := by
  obtain ⟨hy, hm1, hm2, hd1, hd2⟩ := h
  unfold nextDay
  split_ifs with h1 h2
  · unfold daysFromCivil
    simp only
    omega
  · -- end of month, not December: `c.day = daysInMonth c.year c.month`
    unfold daysFromCivil
    simp only
    rw [cumDaysB_succ _ _ hm1]
    unfold daysInMonth at h1 hd2
    omega
  · -- end of December: roll into the next year
    have hm12 : c.month = 12 := by omega
    unfold daysInMonth at h1 hd2
    rw [hm12] at h1 hd2
    have hd : c.day = daysInMonthB (isLeap c.year) 12 := by omega
    unfold daysFromCivil
    simp only [hm12, hd]
    have hyear : daysToYear (c.year + 1) = daysToYear c.year + yearLen c.year := by
      unfold daysToYear
      rw [show c.year + 1 - 1970 = (c.year - 1970) + 1 from by omega,
        daysToYearAux_succ, show 1970 + (c.year - 1970) = c.year from by omega]
    rw [hyear]
    have hcum : cumDaysB (isLeap c.year) 12 + daysInMonthB (isLeap c.year) 12 =
        yearLen c.year := by
      rw [cumDaysB_year]
      unfold yearLen
      rfl
    have hcum1 : cumDaysB (isLeap (c.year + 1)) 1 = 0 := rfl
    rw [hcum1]
    omega

lemma daysFromCivil_civilOfDays (n : Nat) : daysFromCivil (civilOfDays n) = n := by
  induction n with
  | zero => decide
  | succ n ih =>
    show daysFromCivil (nextDay (civilOfDays n)) = n + 1
    rw [daysFromCivil_nextDay (civilOfDays_wf n), ih]

lemma civilOfDays_injective : Function.Injective civilOfDays := by
  intro a b h
  have := congrArg daysFromCivil h
  rwa [daysFromCivil_civilOfDays, daysFromCivil_civilOfDays] at this

/-- Weekday of a civil date: 0 = Sunday .. 6 = Saturday.  1970-01-01 was a
Thursday (= 4), matching ECMAScript `WeekDay(t) = (Day(t) + 4) modulo 7`. -/
def civilDayOfWeek (c : CivilDate) : Nat := (daysFromCivil c + 4) % 7

/-- Date part of `toISOString` for an instant `ms` (milliseconds since the
epoch, non-negative). -/
def toISODate (ms : Nat) : CivilDate := civilOfDays (ms / msPerDay)

/-- Model of `getUTCDay` for an instant `ms`: ECMAScript `WeekDay(t)`. -/
def utcDayOfWeek (ms : Nat) : Nat := (ms / msPerDay + 4) % 7

/-- One entry of the 7-day calendar window built by
`getUserWeeklyScheduleWithVisits`: `{ date: ..., dayOfWeek: ... }`. -/
structure DayInfo where
  date : CivilDate
  dayOfWeek : Nat
deriving DecidableEq

/-- Default `DayInfo`, used only as the out-of-range default of `List.getD`. -/
def dayInfo0 : DayInfo := ⟨⟨0, 0, 0⟩, 0⟩

/-- The rolling 7-day window of `getUserWeeklyScheduleWithVisits`
(`db-postgres.js`):

```js
const nowCairo = new Date(nowUTC.getTime() + cairoOffset);
for (let i = 0; i < 7; i++) {
  const d = new Date(nowCairo);
  d.setUTCDate(nowCairo.getUTCDate() + i);
  dayDates.push({ date: d.toISOString().split('T')[0], dayOfWeek: d.getUTCDay() });
}
```

`setUTCDate(getUTCDate() + i)` adds exactly `i` days to the timestamp:
ECMAScript `MakeDay(year, month, dayOfMonth + i)` is linear in the
day-of-month argument and UTC time has no offset transitions, so the new
instant is the old one plus `i * msPerDay`.  The window is therefore the
list of `toISOString` dates and `getUTCDay` weekdays of the instants
`nowCairo + i * msPerDay` for `i = 0..6`. -/
def weekWindow (nowUtc : Nat) : List DayInfo :=
  (List.range 7).map fun i =>
    { date := toISODate (nowUtc + cairoOffsetMs + i * msPerDay)
      dayOfWeek := utcDayOfWeek (nowUtc + cairoOffsetMs + i * msPerDay) }

/-- Day number (Cairo calendar day since the epoch) of "today in the business
timezone" for the UTC instant `nowUtc`. -/
def cairoDays (nowUtc : Nat) : Nat := (nowUtc + cairoOffsetMs) / msPerDay

lemma weekWindow_getD (nowUtc i : Nat) (h : i < 7) :
    (weekWindow nowUtc).getD i dayInfo0 =
      ⟨civilOfDays (cairoDays nowUtc + i), (cairoDays nowUtc + i + 4) % 7⟩ := by
  have hdiv : (nowUtc + cairoOffsetMs + i * msPerDay) / msPerDay =
      cairoDays nowUtc + i := by
    unfold cairoDays
    rw [Nat.add_mul_div_right _ _ (show 0 < msPerDay from by decide)]
  unfold weekWindow toISODate utcDayOfWeek
  rw [List.getD_eq_getElem?_getD, List.getElem?_map, List.getElem?_range h]
  simp [hdiv]

lemma weekWindow_length (nowUtc : Nat) : (weekWindow nowUtc).length = 7 := by
  unfold weekWindow
  simp

/-- Claim C5.  The calendar window built by `getUserWeeklyScheduleWithVisits`
always has exactly 7 entries; it begins with today's date in the business
timezone (UTC+2); each following entry's date is the calendar successor of
the previous one (strictly increasing by one calendar day, hence no
duplicate or skipped date, also across month and year boundaries — the
successor function `nextDay` carries the 28/30/31-day month lengths and the
leap-day rule); every entry's `dayOfWeek` lies in 0..6 (0 = Sunday) and
matches its date's weekday; and all 7 dates are pairwise distinct. -/
theorem weekWindow_correct (nowUtc : Nat) :
    (weekWindow nowUtc).length = 7 ∧
    (weekWindow nowUtc).getD 0 dayInfo0 =
      ⟨toISODate (nowUtc + cairoOffsetMs), utcDayOfWeek (nowUtc + cairoOffsetMs)⟩ ∧
    (∀ i, i + 1 < 7 →
      ((weekWindow nowUtc).getD (i + 1) dayInfo0).date =
        nextDay (((weekWindow nowUtc).getD i dayInfo0).date)) ∧
    (∀ i, i < 7 →
      ((weekWindow nowUtc).getD i dayInfo0).dayOfWeek < 7 ∧
      ((weekWindow nowUtc).getD i dayInfo0).dayOfWeek =
        civilDayOfWeek (((weekWindow nowUtc).getD i dayInfo0).date)) ∧
    (∀ i j, i < 7 → j < 7 →
      ((weekWindow nowUtc).getD i dayInfo0).date =
        ((weekWindow nowUtc).getD j dayInfo0).date → i = j) := by
  refine ⟨weekWindow_length nowUtc, ?_, ?_, ?_, ?_⟩
  · rw [weekWindow_getD nowUtc 0 (by omega)]
    unfold toISODate utcDayOfWeek cairoDays
    simp
  · intro i h
    rw [weekWindow_getD nowUtc (i + 1) h, weekWindow_getD nowUtc i (by omega)]
    show civilOfDays (cairoDays nowUtc + (i + 1)) = nextDay (civilOfDays (cairoDays nowUtc + i))
    rw [show cairoDays nowUtc + (i + 1) = (cairoDays nowUtc + i) + 1 from by omega]
    rfl
  · intro i h
    rw [weekWindow_getD nowUtc i h]
    constructor
    · exact Nat.mod_lt _ (by omega)
    · show (cairoDays nowUtc + i + 4) % 7 =
        civilDayOfWeek (civilOfDays (cairoDays nowUtc + i))
      unfold civilDayOfWeek
      rw [daysFromCivil_civilOfDays]
  · intro i j hi hj hdate
    rw [weekWindow_getD nowUtc i hi, weekWindow_getD nowUtc j hj] at hdate
    have := civilOfDays_injective hdate
    omega

/-- Closed-instance witness for `weekWindow_correct`: at the UTC instant
`86400000` (1970-01-02T00:00:00Z) the second window entry's date is the
calendar successor of the first entry's date. -/
theorem weekWindow_correct_witness :
    ((weekWindow 86400000).getD 1 dayInfo0).date =
      nextDay (((weekWindow 86400000).getD 0 dayInfo0).date) :=
  (weekWindow_correct 86400000).2.2.1 0 (by decide)

/-! ## Data model

Row structures mirror the PostgreSQL schema created in `db-postgres.js`
(`createTables`).  Tables are lists of rows in insertion order; `SERIAL`
primary keys are modelled by explicit `next_*_id` counters on the `DB`
state.  `DATE` columns hold `YYYY-MM-DD` strings in the source and are
modelled by `CivilDate`; `TIMESTAMP` columns by `Option Nat` (milliseconds,
`none` = SQL `NULL`). -/

structure UserRow where
  id : Nat
  full_name : String
deriving DecidableEq

structure Store where
  id : Nat
  name : String
deriving DecidableEq

/-- A `route_schedules` row. -/
structure RouteSchedule where
  id : Nat
  user_id : Nat
  store_id : Nat
  day_of_week : Nat
  created_by : Nat
deriving DecidableEq

/-- A `visit_logs` row (`UNIQUE(route_schedule_id, visit_date)` in the schema;
`is_completed INTEGER DEFAULT 0`). -/
structure VisitLog where
  id : Nat
  route_schedule_id : Nat
  store_id : Nat
  user_id : Nat
  visit_date : CivilDate
  is_completed : Nat
  completed_at : Option Nat
deriving DecidableEq

/-- A `route_tasks` row (carries the `completed_by_snapshot_id` back-reference
to `stock_snapshot(id)`, declared without an `ON DELETE` action). -/
structure RouteTask where
  id : Nat
  route_schedule_id : Nat
  task_id : Nat
  scheduled_date : CivilDate
  store_id : Nat
  user_id : Nat
  is_completed : Nat
  completed_by_snapshot_id : Option Nat
deriving DecidableEq

/-- A `tasks` row (only the fields the scheduling core touches). -/
structure Task where
  id : Nat
  status : String
  completed_at : Option Nat
deriving DecidableEq

/-- A `stock_snapshot` row (only the fields the scheduling core reads). -/
structure StockSnapshot where
  id : Nat
  store_id : Nat
  product_id : Nat
  date : CivilDate
  qty : Nat
  user_id : Option Nat
deriving DecidableEq

structure DB where
  users : List UserRow
  stores : List Store
  route_schedules : List RouteSchedule
  visit_logs : List VisitLog
  route_tasks : List RouteTask
  tasks : List Task
  stock_snapshot : List StockSnapshot
  next_visit_log_id : Nat
  next_route_schedule_id : Nat
  next_snapshot_id : Nat
deriving DecidableEq

/-! ## Snapshot-derived evidence (`markVisitCompleteFromSnapshot`) -/

structure MarkResult where
  success : Bool
  noSchedule : Bool
  isCompleted : Bool
deriving DecidableEq

/-- Model of `db-postgres.js` `markVisitCompleteFromSnapshot(storeId, userId, visitDate)`:

```js
const dateObj = new Date(visitDate + 'T00:00:00');
const dayOfWeek = dateObj.getDay();
const schedule = await this.query(
  'SELECT id, store_id FROM route_schedules WHERE user_id = $1 AND store_id = $2 AND day_of_week = $3', ...);
if (schedule.length === 0) return { success: true, noSchedule: true };
const routeScheduleId = schedule[0].id;
await this.execute('DELETE FROM visit_logs WHERE route_schedule_id = $1 AND visit_date = $2', ...);
await this.execute('INSERT INTO visit_logs (..., is_completed, completed_at) VALUES (..., 1, CURRENT_TIMESTAMP)', ...);
return { success: true, isCompleted: true };
```

Parsing `visitDate + 'T00:00:00'` yields local midnight of that calendar
date and `getDay()` the local weekday of that instant, which is the weekday
of the civil date itself, independent of the host timezone; this is
`civilDayOfWeek`.  `CURRENT_TIMESTAMP` is passed in as `now`.

The `WHERE user_id = $1 AND store_id = $2 AND day_of_week = $3` lookup
(with `$3 = dayOfWeek(visitDate)`) is `markSchedMatch` below, and the
`WHERE route_schedule_id = $1 AND visit_date = $2` key of `visit_logs` is
`vlKey`; `markVisitCompleteFromSnapshot` itself follows. -/
def markSchedMatch (storeId userId : Nat) (visitDate : CivilDate)
    (s : RouteSchedule) : Bool :=
  decide (s.user_id = userId ∧ s.store_id = storeId ∧
    s.day_of_week = civilDayOfWeek visitDate)

def vlKey (rsId : Nat) (d : CivilDate) (v : VisitLog) : Bool :=
  decide (v.route_schedule_id = rsId ∧ v.visit_date = d)

def markVisitCompleteFromSnapshot (storeId userId : Nat) (visitDate : CivilDate)
    (now : Nat) (db : DB) : DB × MarkResult :=
  match db.route_schedules.filter (markSchedMatch storeId userId visitDate) with
  | [] => (db, ⟨true, true, false⟩)
  | s :: _ =>
    ({ db with
        visit_logs :=
          db.visit_logs.filter (fun v => !vlKey s.id visitDate v) ++
          [⟨db.next_visit_log_id, s.id, storeId, userId, visitDate, 1, some now⟩]
        next_visit_log_id := db.next_visit_log_id + 1 },
      ⟨true, false, true⟩)

lemma mark_no_schedule (storeId userId now : Nat) (visitDate : CivilDate) (db : DB)
    (h : db.route_schedules.filter (markSchedMatch storeId userId visitDate) = []) :
    markVisitCompleteFromSnapshot storeId userId visitDate now db =
      (db, ⟨true, true, false⟩) := by
  unfold markVisitCompleteFromSnapshot
  rw [h]

lemma mark_found (storeId userId now : Nat) (visitDate : CivilDate) (db : DB)
    (s : RouteSchedule) (rest : List RouteSchedule)
    (h : db.route_schedules.filter (markSchedMatch storeId userId visitDate) = s :: rest) :
    markVisitCompleteFromSnapshot storeId userId visitDate now db =
      ({ db with
          visit_logs :=
            db.visit_logs.filter (fun v => !vlKey s.id visitDate v) ++
            [⟨db.next_visit_log_id, s.id, storeId, userId, visitDate, 1, some now⟩]
          next_visit_log_id := db.next_visit_log_id + 1 },
        ⟨true, false, true⟩) := by
  unfold markVisitCompleteFromSnapshot
  rw [h]

lemma mark_found_logs (storeId userId now : Nat) (visitDate : CivilDate) (db : DB)
    (s : RouteSchedule) (rest : List RouteSchedule)
    (h : db.route_schedules.filter (markSchedMatch storeId userId visitDate) = s :: rest) :
    ((markVisitCompleteFromSnapshot storeId userId visitDate now db).1.visit_logs.countP
        (vlKey s.id visitDate) = 1) ∧
    (∀ v ∈ (markVisitCompleteFromSnapshot storeId userId visitDate now db).1.visit_logs,
        vlKey s.id visitDate v = true → v.is_completed = 1) ∧
    (markVisitCompleteFromSnapshot storeId userId visitDate now db).1.route_schedules =
      db.route_schedules := by
  rw [mark_found storeId userId now visitDate db s rest h]
  refine ⟨?_, ?_, rfl⟩
  · rw [List.countP_append]
    have h0 : (db.visit_logs.filter (fun v => !vlKey s.id visitDate v)).countP
        (vlKey s.id visitDate) = 0 := by
      rw [List.countP_eq_zero]
      intro v hv
      have := (List.mem_filter.mp hv).2
      simp only [Bool.not_eq_true'] at this
      simp [this]
    rw [h0]
    simp [vlKey]
  · intro v hv hkey
    rcases List.mem_append.mp hv with hv' | hv'
    · have := (List.mem_filter.mp hv').2
      rw [hkey] at this
      simp at this
    · rcases List.mem_singleton.mp hv' with rfl
      rfl

/-- Claim C3.  For every call `markVisitCompleteFromSnapshot(storeId, userId,
visitDate)`: if no `route_schedules` row matches `(userId, storeId,
dayOfWeek(visitDate))`, the call succeeds with `noSchedule: true` and the
database is unchanged (in particular no `visit_logs` row is created); if one
matches (`s` being the first match), after the call exactly one `visit_logs`
row exists for `(s.id, visitDate)` and it has `is_completed = 1`, regardless
of any prior row's state; and calling it twice with identical
`(store, user, date)` again leaves exactly one such row, still completed. -/
theorem markVisitCompleteFromSnapshot_correct (storeId userId now now2 : Nat)
    (visitDate : CivilDate) (db : DB) :
    (db.route_schedules.filter (markSchedMatch storeId userId visitDate) = [] →
      markVisitCompleteFromSnapshot storeId userId visitDate now db =
        (db, ⟨true, true, false⟩)) ∧
    (∀ s rest,
      db.route_schedules.filter (markSchedMatch storeId userId visitDate) = s :: rest →
      ((markVisitCompleteFromSnapshot storeId userId visitDate now db).1.visit_logs.countP
          (vlKey s.id visitDate) = 1 ∧
        (∀ v ∈ (markVisitCompleteFromSnapshot storeId userId visitDate now db).1.visit_logs,
          vlKey s.id visitDate v = true → v.is_completed = 1) ∧
        (markVisitCompleteFromSnapshot storeId userId visitDate now db).2 =
          ⟨true, false, true⟩ ∧
        ((markVisitCompleteFromSnapshot storeId userId visitDate now2
            (markVisitCompleteFromSnapshot storeId userId visitDate now db).1).1.visit_logs.countP
          (vlKey s.id visitDate) = 1 ∧
          ∀ v ∈ (markVisitCompleteFromSnapshot storeId userId visitDate now2
            (markVisitCompleteFromSnapshot storeId userId visitDate now db).1).1.visit_logs,
            vlKey s.id visitDate v = true → v.is_completed = 1))) := by
  refine ⟨mark_no_schedule storeId userId now visitDate db, ?_⟩
  intro s rest h
  obtain ⟨hc, hall, hsched⟩ := mark_found_logs storeId userId now visitDate db s rest h
  have h2 : (markVisitCompleteFromSnapshot storeId userId visitDate now
      db).1.route_schedules.filter (markSchedMatch storeId userId visitDate) = s :: rest := by
    rw [hsched, h]
  have hres : (markVisitCompleteFromSnapshot storeId userId visitDate now db).2 =
      ⟨true, false, true⟩ := by
    rw [mark_found storeId userId now visitDate db s rest h]
  obtain ⟨hc2, hall2, _⟩ :=
    mark_found_logs storeId userId now2 visitDate
      (markVisitCompleteFromSnapshot storeId userId visitDate now db).1 s rest h2
  exact ⟨hc, hall, hres, hc2, hall2⟩

/-- Example store of the witness databases. -/
def exStore : Store := ⟨10, "Store A"⟩

/-- Example user of the witness databases. -/
def exUser : UserRow := ⟨7, "Rep"⟩

/-- Example schedule: user 7 visits store 10 on Fridays (day_of_week 5;
1970-01-02 was a Friday). -/
def exSchedule : RouteSchedule := ⟨1, 7, 10, 5, 2⟩

/-- A database with one schedule and no visit logs. -/
def exDb3 : DB :=
  ⟨[exUser], [exStore], [exSchedule], [], [], [], [], 1, 2, 1⟩

/-- Closed-instance witness for `markVisitCompleteFromSnapshot_correct`: a
snapshot by user 7 at store 10 on Friday 1970-01-02 leaves exactly one
completed `visit_logs` row for schedule 1 and that date. -/
theorem markVisitCompleteFromSnapshot_correct_witness :
    (markVisitCompleteFromSnapshot 10 7 ⟨1970, 1, 2⟩ 1000 exDb3).1.visit_logs.countP
      (vlKey 1 ⟨1970, 1, 2⟩) = 1 :=
  ((markVisitCompleteFromSnapshot_correct 10 7 1000 2000 ⟨1970, 1, 2⟩ exDb3).2
    exSchedule [] (by decide)).1

/-! ## Snapshot persistence and deletion (`addSnapshot`, `deleteSnapshot`,
`POST /api/snapshots`, `DELETE /api/snapshots/:id`) -/

/-- The fields of a `POST /api/snapshots` body that the scheduling core
reads. -/
structure SnapshotBody where
  store_id : Nat
  product_id : Nat
  date : CivilDate
  qty : Nat
deriving DecidableEq

/-- Model of `db-postgres.js` `addSnapshot(data, userId)`: upsert on
`(store_id, product_id, date)` — `UPDATE` the existing row if one matches,
else `INSERT` a new one.  It returns `{ success: true }` only; in
particular it does not touch `route_tasks`, `tasks` or `visit_logs`, and it
does not report the new snapshot's id. -/
def addSnapshot (body : SnapshotBody) (userId : Option Nat) (db : DB) : DB :=
  match db.stock_snapshot.filter (fun sn =>
      decide (sn.store_id = body.store_id ∧ sn.product_id = body.product_id ∧
        sn.date = body.date)) with
  | [] =>
    { db with
        stock_snapshot := db.stock_snapshot ++
          [⟨db.next_snapshot_id, body.store_id, body.product_id, body.date,
            body.qty, userId⟩]
        next_snapshot_id := db.next_snapshot_id + 1 }
  | _ :: _ =>
    { db with
        stock_snapshot := db.stock_snapshot.map (fun sn =>
          if sn.store_id = body.store_id ∧ sn.product_id = body.product_id ∧
              sn.date = body.date then
            { sn with qty := body.qty, user_id := userId }
          else sn) }

/-- Model of `server.js` `POST /api/snapshots` (lines 455-486): persist the snapshot
via `addSnapshot`, then — when `req.body.store_id` and `req.body.date` are
truthy (`store_id = 0` is falsy in JavaScript; the date is always present in
this model) — call `markVisitCompleteFromSnapshot(store_id, user.id, date)`. -/
def postSnapshot (body : SnapshotBody) (userId now : Nat) (db : DB) : DB :=
  let db1 := addSnapshot body (some userId) db
  if body.store_id ≠ 0 then
    (markVisitCompleteFromSnapshot body.store_id userId body.date now db1).1
  else db1

/-- Model of `db-postgres.js` `deleteSnapshot(id)` (lines 601-605 of the data layer):

```js
async deleteSnapshot(id) {
  await this.initialize();
  await this.execute('DELETE FROM stock_snapshot WHERE id = $1', [id]);
  return { success: true };
}
```

A bare delete.  The schema declares
`completed_by_snapshot_id INTEGER REFERENCES stock_snapshot(id)` on
`route_tasks` with no `ON DELETE` action, so PostgreSQL applies `NO ACTION`:
deleting a snapshot row that a `route_tasks` row still references raises a
foreign-key violation, which `this.execute` propagates as a thrown error
(modelled as `Except.error`); otherwise the row is removed.  No reversal of
`route_tasks` or `visit_logs` happens on any path. -/
def deleteSnapshot (id : Nat) (db : DB) : Except String DB :=
  if db.stock_snapshot.any (fun sn => decide (sn.id = id)) &&
      db.route_tasks.any (fun rt => decide (rt.completed_by_snapshot_id = some id)) then
    Except.error "foreign key violation on route_tasks.completed_by_snapshot_id"
  else
    Except.ok { db with
      stock_snapshot := db.stock_snapshot.filter (fun sn => decide (¬sn.id = id)) }

lemma markVisit_route_tasks (storeId userId now : Nat) (visitDate : CivilDate)
    (db : DB) :
    (markVisitCompleteFromSnapshot storeId userId visitDate now db).1.route_tasks =
      db.route_tasks ∧
    (markVisitCompleteFromSnapshot storeId userId visitDate now db).1.tasks =
      db.tasks := by
  unfold markVisitCompleteFromSnapshot
  split <;> exact ⟨rfl, rfl⟩

lemma addSnapshot_route_tasks (body : SnapshotBody) (userId : Option Nat) (db : DB) :
    (addSnapshot body userId db).route_tasks = db.route_tasks ∧
    (addSnapshot body userId db).tasks = db.tasks := by
  unfold addSnapshot
  split <;> exact ⟨rfl, rfl⟩

/-- The completed `route_tasks` row of the C1/C2 scenario databases:
schedule 1's task for Friday 1970-01-02, already completed by snapshot 5. -/
def exRouteTaskDone : RouteTask := ⟨1, 1, 5, ⟨1970, 1, 2⟩, 10, 7, 1, some 5⟩

/-- The pending `route_tasks` row of the C2 scenario: schedule 1's task for
Friday 1970-01-02, not yet completed. -/
def exRouteTaskPending : RouteTask := ⟨1, 1, 5, ⟨1970, 1, 2⟩, 10, 7, 0, none⟩

/-- C2 scenario: user 7 is scheduled at store 10 on Fridays, a pending
route task exists for Friday 1970-01-02, and no snapshot exists yet. -/
def exDb2 : DB :=
  ⟨[exUser], [exStore], [exSchedule], [], [exRouteTaskPending],
    [⟨5, "pending", none⟩], [], 1, 2, 9⟩

/-- Claim C2 (code bug).  A `POST /api/snapshots` for (store 10, user 7, Friday
1970-01-02) — with a matching schedule template and a pending `route_tasks`
row for the same (schedule, date, user) — persists the snapshot and marks
the `visit_logs` row complete, but leaves `route_tasks` and `tasks` exactly
as they were: the route task is still `is_completed = 0` with
`completed_by_snapshot_id = NULL`, and in general no snapshot-submission
path ever writes to `route_tasks` or `tasks`, contradicting the claimed
propagation (which the spec §4.5 and the repository's own
`VERIFICATION-REPORT.md` copy of `addSnapshot`/`deleteSnapshot` require). -/
theorem postSnapshot_no_task_propagation :
    ((postSnapshot ⟨10, 3, ⟨1970, 1, 2⟩, 4⟩ 7 1000 exDb2).route_tasks =
        [exRouteTaskPending] ∧
      (postSnapshot ⟨10, 3, ⟨1970, 1, 2⟩, 4⟩ 7 1000 exDb2).tasks =
        [⟨5, "pending", none⟩] ∧
      (postSnapshot ⟨10, 3, ⟨1970, 1, 2⟩, 4⟩ 7 1000 exDb2).stock_snapshot.length = 1 ∧
      (postSnapshot ⟨10, 3, ⟨1970, 1, 2⟩, 4⟩ 7 1000 exDb2).visit_logs.countP
        (vlKey 1 ⟨1970, 1, 2⟩) = 1) ∧
    ∀ (body : SnapshotBody) (userId now : Nat) (db : DB),
      (postSnapshot body userId now db).route_tasks = db.route_tasks ∧
      (postSnapshot body userId now db).tasks = db.tasks := by
  refine ⟨by decide, ?_⟩
  intro body userId now db
  unfold postSnapshot
  split
  · obtain ⟨h1, h2⟩ := markVisit_route_tasks body.store_id userId now body.date
      (addSnapshot body (some userId) db)
    obtain ⟨h3, h4⟩ := addSnapshot_route_tasks body (some userId) db
    rw [h1, h2, h3, h4]
    exact ⟨rfl, rfl⟩
  · exact addSnapshot_route_tasks body (some userId) db

/-- C1 scenario: snapshot 5 exists and route task 1 was completed by it. -/
def exDb1 : DB :=
  ⟨[exUser], [exStore], [exSchedule],
    [⟨1, 1, 10, 7, ⟨1970, 1, 2⟩, 1, some 500⟩],
    [exRouteTaskDone], [⟨5, "completed", some 500⟩],
    [⟨5, 10, 3, ⟨1970, 1, 2⟩, 4, some 7⟩], 2, 2, 9⟩

/-- C1 scenario without the referencing route task, so the delete succeeds. -/
def exDb1ok : DB :=
  ⟨[exUser], [exStore], [exSchedule], [], [], [],
    [⟨5, 10, 3, ⟨1970, 1, 2⟩, 4, some 7⟩], 1, 2, 9⟩

/-- Claim C1 (code bug).  The function `deleteSnapshot` performs no reversal: on the C1
scenario the bare `DELETE FROM stock_snapshot` hits the
`completed_by_snapshot_id` foreign key and fails, leaving the route task
completed and still referencing snapshot 5 (and the snapshot in place); and
on every successful delete the `route_tasks` table is left untouched, so a
route task completed by a deleted snapshot would keep `is_completed = 1`
and its dangling link — no path unsets `is_completed` or clears
`completed_by_snapshot_id`, contradicting the claimed reversal (required by
spec §4.5 and present in the repository's `VERIFICATION-REPORT.md` copy of
`deleteSnapshot`). -/
theorem deleteSnapshot_no_reversal :
    ((deleteSnapshot 5 exDb1).isOk = false ∧
      exDb1.route_tasks = [exRouteTaskDone] ∧
      exRouteTaskDone.is_completed = 1 ∧
      exRouteTaskDone.completed_by_snapshot_id = some 5) ∧
    ∀ (id : Nat) (db db' : DB), deleteSnapshot id db = Except.ok db' →
      db'.route_tasks = db.route_tasks ∧ db'.visit_logs = db.visit_logs := by
  refine ⟨by decide, ?_⟩
  intro id db db' h
  unfold deleteSnapshot at h
  split at h
  · cases h
  · cases h
    exact ⟨rfl, rfl⟩

/-- Closed-instance witness for `deleteSnapshot_no_reversal`: deleting the
unreferenced snapshot 5 of `exDb1ok` succeeds and leaves `route_tasks` and
`visit_logs` unchanged. -/
theorem deleteSnapshot_no_reversal_witness :
    ((deleteSnapshot 5 exDb1ok).isOk = false ∧
        exDb1.route_tasks = [exRouteTaskDone] ∧
        exRouteTaskDone.is_completed = 1 ∧
        exRouteTaskDone.completed_by_snapshot_id = some 5) ∨
      ({ exDb1ok with stock_snapshot := [] } : DB).route_tasks =
          exDb1ok.route_tasks ∧
        ({ exDb1ok with stock_snapshot := [] } : DB).visit_logs =
          exDb1ok.visit_logs :=
  Or.inr (deleteSnapshot_no_reversal.2 5 exDb1ok
    { exDb1ok with stock_snapshot := [] } rfl)

/-! ## Visit toggle (`toggleVisitComplete`, `POST /route-schedules/:id/toggle-visit`) -/

structure ToggleResult where
  success : Bool
  isCompleted : Option Bool
deriving DecidableEq

/-- Model of `db-postgres.js` `toggleVisitComplete(routeScheduleId, visitDate, userId)`:
look up the schedule by id (`{ success: false, error: 'Route schedule not
found' }` when absent, before any write); then either `INSERT` a completed
`visit_logs` row (none existed) or flip `is_completed` of the existing row
(`existing[0].is_completed ? 0 : 1`, JavaScript truthiness = `≠ 0`) with
`completed_at` set to now if the new state is completed and `NULL`
otherwise, `UPDATE ... WHERE id = existing[0].id`. -/
def toggleVisitComplete (routeScheduleId : Nat) (visitDate : CivilDate)
    (userId now : Nat) (db : DB) : DB × ToggleResult :=
  match db.route_schedules.filter (fun s => decide (s.id = routeScheduleId)) with
  | [] => (db, ⟨false, none⟩)
  | s :: _ =>
    match db.visit_logs.filter (vlKey routeScheduleId visitDate) with
    | [] =>
      ({ db with
          visit_logs := db.visit_logs ++
            [⟨db.next_visit_log_id, routeScheduleId, s.store_id, userId,
              visitDate, 1, some now⟩]
          next_visit_log_id := db.next_visit_log_id + 1 },
        ⟨true, some true⟩)
    | v :: _ =>
      ({ db with
          visit_logs := db.visit_logs.map (fun w =>
            if w.id = v.id then
              { w with
                  is_completed := if v.is_completed ≠ 0 then 0 else 1
                  completed_at := if v.is_completed ≠ 0 then none else some now }
            else w) },
        ⟨true, some (decide (v.is_completed = 0))⟩)

/-- Claim C6.  For every call `toggleVisitComplete(routeScheduleId, visitDate,
userId)`: if no `route_schedules` row with that id exists, the failure is
reported and the database is unchanged (no partial effect); if the schedule
exists (`s` the first match) but no `visit_logs` row exists for
`(routeScheduleId, visitDate)`, exactly one new row is appended with
`is_completed = 1` and `completed_at` set, and `isCompleted = true` is
returned; if a row `v` exists, the row with `v`'s id has `is_completed`
flipped with `completed_at` set exactly when the new state is completed,
rows with other ids are untouched, no row is created, and the returned
`isCompleted` reflects the new state. -/
theorem toggleVisitComplete_correct (rsId userId now : Nat)
    (visitDate : CivilDate) (db : DB) :
    (db.route_schedules.filter (fun s => decide (s.id = rsId)) = [] →
      toggleVisitComplete rsId visitDate userId now db = (db, ⟨false, none⟩)) ∧
    (∀ s ss, db.route_schedules.filter (fun s => decide (s.id = rsId)) = s :: ss →
      (db.visit_logs.filter (vlKey rsId visitDate) = [] →
        toggleVisitComplete rsId visitDate userId now db =
          ({ db with
              visit_logs := db.visit_logs ++
                [⟨db.next_visit_log_id, rsId, s.store_id, userId, visitDate, 1, some now⟩]
              next_visit_log_id := db.next_visit_log_id + 1 },
            ⟨true, some true⟩)) ∧
      (∀ v vs, db.visit_logs.filter (vlKey rsId visitDate) = v :: vs →
        (toggleVisitComplete rsId visitDate userId now db).2 =
          ⟨true, some (decide (v.is_completed = 0))⟩ ∧
        ({ v with
            is_completed := if v.is_completed = 0 then 1 else 0
            completed_at := if v.is_completed = 0 then some now else none } : VisitLog) ∈
          (toggleVisitComplete rsId visitDate userId now db).1.visit_logs ∧
        (∀ w ∈ db.visit_logs, w.id ≠ v.id →
          w ∈ (toggleVisitComplete rsId visitDate userId now db).1.visit_logs) ∧
        (toggleVisitComplete rsId visitDate userId now db).1.visit_logs.length =
          db.visit_logs.length ∧
        (toggleVisitComplete rsId visitDate userId now db).1.route_schedules =
          db.route_schedules)) := by
  refine ⟨?_, ?_⟩
  · intro h
    unfold toggleVisitComplete
    rw [h]
  · intro s ss hs
    refine ⟨?_, ?_⟩
    · intro hempty
      unfold toggleVisitComplete
      rw [hs, hempty]
    · intro v vs hv
      have hstep : toggleVisitComplete rsId visitDate userId now db =
          ({ db with
              visit_logs := db.visit_logs.map (fun w =>
                if w.id = v.id then
                  { w with
                      is_completed := if v.is_completed ≠ 0 then 0 else 1
                      completed_at := if v.is_completed ≠ 0 then none else some now }
                else w) },
            ⟨true, some (decide (v.is_completed = 0))⟩) := by
        unfold toggleVisitComplete
        rw [hs, hv]
      rw [hstep]
      have hvmem : v ∈ db.visit_logs :=
        List.mem_of_mem_filter (hv ▸ List.mem_cons_self v vs)
      refine ⟨rfl, ?_, ?_, by simp, rfl⟩
      · refine List.mem_map.mpr ⟨v, hvmem, ?_⟩
        rw [if_pos rfl]
        by_cases h0 : v.is_completed = 0
        · simp [h0]
        · simp [h0]
      · intro w hw hne
        exact List.mem_map.mpr ⟨w, hw, by rw [if_neg hne]⟩

/-- A database for the C6 witness: schedule 1 with an existing completed
visit log for Friday 1970-01-02. -/
def exDb6 : DB :=
  ⟨[exUser], [exStore], [exSchedule],
    [⟨1, 1, 10, 7, ⟨1970, 1, 2⟩, 1, some 500⟩], [], [], [], 2, 2, 1⟩

/-- Closed-instance witness for `toggleVisitComplete_correct`: toggling
schedule 1 on 1970-01-02, whose visit log is completed, returns
`isCompleted = false`. -/
theorem toggleVisitComplete_correct_witness :
    (toggleVisitComplete 1 ⟨1970, 1, 2⟩ 7 900 exDb6).2 = ⟨true, some false⟩ :=
  (((toggleVisitComplete_correct 1 7 900 ⟨1970, 1, 2⟩ exDb6).2
    exSchedule [] rfl).2 ⟨1, 1, 10, 7, ⟨1970, 1, 2⟩, 1, some 500⟩ [] rfl).1

/-! ## Schedule template store (`addRouteSchedule`, `POST /route-schedules`) -/

/-- The duplicate check of `addRouteSchedule`:
`WHERE user_id = $1 AND store_id = $2 AND day_of_week = $3`. -/
def rsKey (userId dayOfWeek storeId : Nat) (s : RouteSchedule) : Bool :=
  decide (s.user_id = userId ∧ s.store_id = storeId ∧ s.day_of_week = dayOfWeek)

/-- Model of `db-postgres.js` `addRouteSchedule(data, createdBy)`: iterate over
`data.store_ids` (a non-array `store_id` is wrapped into a one-element
list by the caller-side `Array.isArray` check, so the model takes the
list); for each store, `INSERT` a new row only when no row for
`(user_id, store_id, day_of_week)` exists, collecting the inserted ids;
returns `{ success: true, ids, count: ids.length }`.  The `INSERT INTO
route_schedules (user_id, store_id, day_of_week, created_by) VALUES
($1, $2, $3, $4) RETURNING id` step is `insertRS`; `addRouteSchedule`
itself follows. -/
def insertRS (userId storeId dayOfWeek createdBy : Nat) (db : DB) : DB :=
  { db with
      route_schedules := db.route_schedules ++
        [⟨db.next_route_schedule_id, userId, storeId, dayOfWeek, createdBy⟩]
      next_route_schedule_id := db.next_route_schedule_id + 1 }

def addRouteSchedule (userId : Nat) (storeIds : List Nat)
    (dayOfWeek createdBy : Nat) (db : DB) : DB × List Nat :=
  match storeIds with
  | [] => (db, [])
  | storeId :: rest =>
    if (db.route_schedules.filter (rsKey userId dayOfWeek storeId)).isEmpty then
      ((addRouteSchedule userId rest dayOfWeek createdBy
          (insertRS userId storeId dayOfWeek createdBy db)).1,
        db.next_route_schedule_id ::
          (addRouteSchedule userId rest dayOfWeek createdBy
            (insertRS userId storeId dayOfWeek createdBy db)).2)
    else
      addRouteSchedule userId rest dayOfWeek createdBy db

/-- The `(user_id, store_id, day_of_week)` key of a schedule row, as a
triple. -/
def rsTriple (s : RouteSchedule) : Nat × Nat × Nat :=
  (s.user_id, s.store_id, s.day_of_week)

/-- Claim C9.  For every call `addRouteSchedule({user_id, store_ids,
day_of_week}, createdBy)`: the pre-existing rows are left unchanged and the
new table is the old table followed by some list `fresh` of inserted rows;
the returned count (`ids.length`) equals the number of rows actually
inserted; every inserted row carries `(user_id, day_of_week)`, a store from
`store_ids`, and had no pre-existing row for its
`(user_id, store_id, day_of_week)`; after the call every requested key is
present; and if `(user_id, store_id, day_of_week)` was unique before the
call it is still unique after it (duplicates — including duplicates inside
`store_ids` itself — are silently skipped). -/
theorem addRouteSchedule_correct (userId dayOfWeek createdBy : Nat) :
    ∀ (storeIds : List Nat) (db : DB), ∃ fresh : List RouteSchedule,
      (addRouteSchedule userId storeIds dayOfWeek createdBy db).1.route_schedules =
        db.route_schedules ++ fresh ∧
      (addRouteSchedule userId storeIds dayOfWeek createdBy db).2.length =
        fresh.length ∧
      (∀ r ∈ fresh, r.user_id = userId ∧ r.day_of_week = dayOfWeek ∧
        r.store_id ∈ storeIds ∧
        ∀ s ∈ db.route_schedules, rsKey userId dayOfWeek r.store_id s = false) ∧
      (∀ sid ∈ storeIds,
        ∃ s ∈ (addRouteSchedule userId storeIds dayOfWeek createdBy db).1.route_schedules,
          rsKey userId dayOfWeek sid s = true) ∧
      ((db.route_schedules.map rsTriple).Nodup →
        (((addRouteSchedule userId storeIds dayOfWeek createdBy db).1.route_schedules).map
          rsTriple).Nodup) := by
  intro storeIds
  induction storeIds with
  | nil =>
    intro db
    exact ⟨[], by simp [addRouteSchedule], by simp [addRouteSchedule], by simp,
      by simp, by simp [addRouteSchedule]⟩
  | cons storeId rest ih =>
    intro db
    by_cases hdup : (db.route_schedules.filter (rsKey userId dayOfWeek storeId)).isEmpty
    · -- no existing row: insert, then recurse on the extended database
      have hnew : ∀ s ∈ db.route_schedules,
          rsKey userId dayOfWeek storeId s = false := by
        intro s hs
        have hnil : db.route_schedules.filter (rsKey userId dayOfWeek storeId) = [] :=
          List.isEmpty_iff.mp hdup
        by_contra hne
        have : s ∈ db.route_schedules.filter (rsKey userId dayOfWeek storeId) :=
          List.mem_filter.mpr ⟨hs, by revert hne; cases rsKey userId dayOfWeek storeId s <;> simp⟩
        rw [hnil] at this
        exact absurd this (List.not_mem_nil s)
      obtain ⟨fresh, h1, h2, h3, h4, h5⟩ :=
        ih (insertRS userId storeId dayOfWeek createdBy db)
      have hdbrs : (insertRS userId storeId dayOfWeek createdBy db).route_schedules =
          db.route_schedules ++
            [⟨db.next_route_schedule_id, userId, storeId, dayOfWeek, createdBy⟩] := rfl
      have hrun : addRouteSchedule userId (storeId :: rest) dayOfWeek createdBy db =
          ((addRouteSchedule userId rest dayOfWeek createdBy
              (insertRS userId storeId dayOfWeek createdBy db)).1,
            db.next_route_schedule_id ::
              (addRouteSchedule userId rest dayOfWeek createdBy
                (insertRS userId storeId dayOfWeek createdBy db)).2) := by
        simp only [addRouteSchedule]
        rw [if_pos hdup]
      refine ⟨(⟨db.next_route_schedule_id, userId, storeId, dayOfWeek, createdBy⟩ :
          RouteSchedule) :: fresh, ?_, ?_, ?_, ?_, ?_⟩
      · rw [hrun]
        simp only
        rw [h1, hdbrs, List.append_assoc]
        rfl
      · rw [hrun]
        simpa using h2
      · intro r hr
        rcases List.mem_cons.mp hr with rfl | hr'
        · exact ⟨rfl, rfl, List.mem_cons_self _ _, hnew⟩
        · obtain ⟨hu, hd, hst, hnone⟩ := h3 r hr'
          refine ⟨hu, hd, List.mem_cons_of_mem _ hst, ?_⟩
          intro s hs
          exact hnone s (by rw [hdbrs]; exact List.mem_append_left _ hs)
      · intro sid hsid
        rcases List.mem_cons.mp hsid with rfl | hsid'
        · refine ⟨⟨db.next_route_schedule_id, userId, sid, dayOfWeek, createdBy⟩,
            ?_, by simp [rsKey]⟩
          rw [hrun]
          simp only
          rw [h1, hdbrs]
          exact List.mem_append_left _ (List.mem_append_right _ (List.mem_singleton_self _))
        · obtain ⟨s, hs, hkey⟩ := h4 sid hsid'
          refine ⟨s, ?_, hkey⟩
          rw [hrun]
          exact hs
      · intro hnd
        have hnotin : rsTriple ⟨db.next_route_schedule_id, userId, storeId, dayOfWeek,
            createdBy⟩ ∉ db.route_schedules.map rsTriple := by
          intro hmem
          obtain ⟨s, hs, heq⟩ := List.mem_map.mp hmem
          have hfalse := hnew s hs
          unfold rsKey at hfalse
          unfold rsTriple at heq
          simp only [decide_eq_false_iff_not] at hfalse
          apply hfalse
          have e1 := congrArg Prod.fst heq
          have e2 := congrArg (fun p => p.2.1) heq
          have e3 := congrArg (fun p => p.2.2) heq
          simp only at e1 e2 e3
          exact ⟨e1, e2, e3⟩
        have hnd' : ((insertRS userId storeId dayOfWeek createdBy
            db).route_schedules.map rsTriple).Nodup := by
          rw [hdbrs]
          simp only [List.map_append, List.map_singleton]
          rw [List.nodup_append]
          refine ⟨hnd, List.nodup_singleton _, ?_⟩
          intro a ha hb
          exact hnotin ((List.mem_singleton.mp hb) ▸ ha)
        have hres := h5 hnd'
        rw [hrun]
        exact hres
    · -- duplicate: skip this store, recurse on the unchanged database
      have hrun : addRouteSchedule userId (storeId :: rest) dayOfWeek createdBy db =
          addRouteSchedule userId rest dayOfWeek createdBy db := by
        simp only [addRouteSchedule]
        rw [if_neg hdup]
      obtain ⟨fresh, h1, h2, h3, h4, h5⟩ := ih db
      refine ⟨fresh, by rw [hrun]; exact h1, by rw [hrun]; exact h2, ?_, ?_, ?_⟩
      · intro r hr
        obtain ⟨hu, hd, hst, hnone⟩ := h3 r hr
        exact ⟨hu, hd, List.mem_cons_of_mem _ hst, hnone⟩
      · intro sid hsid
        rcases List.mem_cons.mp hsid with rfl | hsid'
        · -- the duplicate's key already exists and rows are only appended
          have hne : db.route_schedules.filter (rsKey userId dayOfWeek sid) ≠ [] := by
            intro hnil
            exact hdup (List.isEmpty_iff.mpr hnil)
          obtain ⟨s, hs⟩ := List.exists_mem_of_ne_nil _ hne
          have hmem := List.mem_filter.mp hs
          refine ⟨s, ?_, hmem.2⟩
          rw [hrun, h1]
          exact List.mem_append_left _ hmem.1
        · obtain ⟨s, hs, hkey⟩ := h4 sid hsid'
          exact ⟨s, by rw [hrun]; exact hs, hkey⟩
      · intro hnd
        rw [hrun]
        exact h5 hnd

/-- Closed-instance witness for `addRouteSchedule_correct`: adding stores
`[10, 10, 20]` for (user 7, Friday) to a database already scheduling
(7, 10, Friday) inserts exactly one row (store 20) and keeps the key
unique. -/
theorem addRouteSchedule_correct_witness :
    (addRouteSchedule 7 [10, 10, 20] 5 2 exDb3).2.length = 1 ∧
    (((addRouteSchedule 7 [10, 10, 20] 5 2 exDb3).1.route_schedules).map
      rsTriple).Nodup := by
  obtain ⟨fresh, h1, h2, h3, h4, h5⟩ :=
    addRouteSchedule_correct 7 5 2 [10, 10, 20] exDb3
  exact ⟨by decide, h5 (by decide)⟩

/-! ## Schedule deletion (`deleteRouteSchedule`, `DELETE /route-schedules/:id`)

`db-postgres.js`:

```js
const routeTasks = await this.query('SELECT task_id FROM route_tasks WHERE route_schedule_id = $1', [id]);
for (const rt of routeTasks) {
  await this.execute('DELETE FROM tasks WHERE id = $1', [rt.task_id]);
}
await this.execute('DELETE FROM route_tasks WHERE route_schedule_id = $1', [id]);
await this.execute('DELETE FROM route_schedules WHERE id = $1', [id]);
return { success: true, deletedTasks: routeTasks.length };
```

The statements run one by one with **no enclosing transaction**; the
`try/catch` returns `{ success: false }` on a thrown error without any
rollback.  Each statement is modelled as a `DB → DB` function including the
schema-level `ON DELETE CASCADE` effects (`route_tasks.task_id` →
`tasks(id)`, `route_tasks.route_schedule_id` and
`visit_logs.route_schedule_id` → `route_schedules(id)`; the cascades on
`task_comments`/`task_attachments` concern tables outside this model).
`deleteRouteScheduleUpTo k` is the database state after only the first
`k` statements succeeded and the next one threw (e.g. the store becoming
unavailable), which the code surfaces as `success: false` with the earlier
effects kept. -/

/-- Statement `DELETE FROM tasks WHERE id = $1` plus its cascades. -/
def taskDeleteStmt (tid : Nat) (d : DB) : DB :=
  { d with
      tasks := d.tasks.filter (fun t => decide (¬t.id = tid))
      route_tasks := d.route_tasks.filter (fun rt => decide (¬rt.task_id = tid)) }

/-- Statement `DELETE FROM route_tasks WHERE route_schedule_id = $1`. -/
def rtDeleteStmt (id : Nat) (d : DB) : DB :=
  { d with
      route_tasks := d.route_tasks.filter (fun rt =>
        decide (¬rt.route_schedule_id = id)) }

/-- Statement `DELETE FROM route_schedules WHERE id = $1` plus its cascades. -/
def rsDeleteStmt (id : Nat) (d : DB) : DB :=
  { d with
      route_schedules := d.route_schedules.filter (fun s => decide (¬s.id = id))
      route_tasks := d.route_tasks.filter (fun rt =>
        decide (¬rt.route_schedule_id = id))
      visit_logs := d.visit_logs.filter (fun v =>
        decide (¬v.route_schedule_id = id)) }

/-- The statement sequence of `deleteRouteSchedule(id)`. -/
def deleteRouteScheduleStmts (id : Nat) (db : DB) : List (DB → DB) :=
  ((db.route_tasks.filter (fun rt => decide (rt.route_schedule_id = id))).map
    (fun rt => taskDeleteStmt rt.task_id)) ++ [rtDeleteStmt id, rsDeleteStmt id]

def applyStmts : List (DB → DB) → DB → DB
  | [], db => db
  | f :: fs, db => applyStmts fs (f db)

/-- Model of `deleteRouteSchedule(id)` when every statement succeeds; the returned
count is `routeTasks.length`. -/
def deleteRouteSchedule (id : Nat) (db : DB) : DB × Nat :=
  (applyStmts (deleteRouteScheduleStmts id db) db,
    (db.route_tasks.filter (fun rt => decide (rt.route_schedule_id = id))).length)

/-- Database state after only the first `k` statements of
`deleteRouteSchedule(id)` executed (the next one threw; no transaction, so
nothing is rolled back). -/
def deleteRouteScheduleUpTo (id : Nat) (db : DB) (k : Nat) : DB :=
  applyStmts ((deleteRouteScheduleStmts id db).take k) db

lemma applyStmts_append (l1 l2 : List (DB → DB)) (db : DB) :
    applyStmts (l1 ++ l2) db = applyStmts l2 (applyStmts l1 db) := by
  induction l1 generalizing db with
  | nil => rfl
  | cons f fs ih => exact ih (f db)

lemma taskDeletes_effect (tids : List Nat) (db : DB) :
    applyStmts (tids.map taskDeleteStmt) db =
      { db with
          tasks := db.tasks.filter (fun t => decide (¬t.id ∈ tids))
          route_tasks := db.route_tasks.filter (fun rt =>
            decide (¬rt.task_id ∈ tids)) } := by
  induction tids generalizing db with
  | nil =>
    show db = _
    cases db
    simp
  | cons tid tids ih =>
    show applyStmts (tids.map taskDeleteStmt) (taskDeleteStmt tid db) = _
    rw [ih]
    unfold taskDeleteStmt
    simp only [List.filter_filter]
    congr 1
    · apply List.filter_congr
      intro rt _
      by_cases h1 : rt.task_id = tid <;> by_cases h2 : rt.task_id ∈ tids <;>
        simp [h1, h2, List.mem_cons, Bool.and_comm]
    · apply List.filter_congr
      intro t _
      by_cases h1 : t.id = tid <;> by_cases h2 : t.id ∈ tids <;>
        simp [h1, h2, List.mem_cons, Bool.and_comm]

/-- Claim C7 (amended).  When every statement succeeds,
`deleteRouteSchedule(id)` removes the schedule together with all of its
dependents — every `route_tasks` row referencing it, each such route task's
parent `tasks` row, and (via the schema's `ON DELETE CASCADE`) every
`visit_logs` row tied to it — leaving unrelated rows in place, and returns
the number of `route_tasks` rows that referenced the schedule.  (The
atomicity conjunct of the original claim fails: see
`deleteRouteSchedule_not_atomic`.) -/
theorem deleteRouteSchedule_cascade (id : Nat) (db : DB) :
    (deleteRouteSchedule id db).2 =
      (db.route_tasks.filter (fun rt => decide (rt.route_schedule_id = id))).length ∧
    (deleteRouteSchedule id db).1.route_schedules =
      db.route_schedules.filter (fun s => decide (¬s.id = id)) ∧
    (deleteRouteSchedule id db).1.visit_logs =
      db.visit_logs.filter (fun v => decide (¬v.route_schedule_id = id)) ∧
    (∀ rt ∈ (deleteRouteSchedule id db).1.route_tasks,
      rt.route_schedule_id ≠ id) ∧
    (∀ t ∈ (deleteRouteSchedule id db).1.tasks, ∀ rt ∈ db.route_tasks,
      rt.route_schedule_id = id → rt.task_id ≠ t.id) ∧
    (∀ t ∈ db.tasks,
      (∀ rt ∈ db.route_tasks, rt.route_schedule_id = id → rt.task_id ≠ t.id) →
      t ∈ (deleteRouteSchedule id db).1.tasks) := by
  have hrun : (deleteRouteSchedule id db).1 =
      rsDeleteStmt id (rtDeleteStmt id (applyStmts
        (((db.route_tasks.filter (fun rt =>
          decide (rt.route_schedule_id = id))).map (fun rt => rt.task_id)).map
            taskDeleteStmt) db)) := by
    show applyStmts (deleteRouteScheduleStmts id db) db = _
    unfold deleteRouteScheduleStmts
    rw [applyStmts_append, List.map_map]
    rfl
  rw [hrun, taskDeletes_effect]
  refine ⟨rfl, rfl, rfl, ?_, ?_, ?_⟩
  · intro rt hrt
    have := (List.mem_filter.mp hrt).2
    simp only [decide_eq_true_eq] at this
    exact this
  · intro t ht rt hrt hrs
    have hkeep := (List.mem_filter.mp ht).2
    simp only [decide_eq_true_eq] at hkeep
    intro heq
    apply hkeep
    exact List.mem_map.mpr ⟨rt,
      List.mem_filter.mpr ⟨hrt, by simp [hrs]⟩, heq⟩
  · intro t ht hnone
    refine List.mem_filter.mpr ⟨ht, ?_⟩
    simp only [decide_eq_true_eq]
    intro hmem
    obtain ⟨rt, hrt, heq⟩ := List.mem_map.mp hmem
    have hrtmem := List.mem_filter.mp hrt
    have hrs : rt.route_schedule_id = id := by
      have := hrtmem.2
      simpa using this
    exact hnone rt hrtmem.1 hrs heq

/-- C7 scenario: schedule 1 with one route task (task 5), two dependent
visit logs, and an unrelated task 9. -/
def exDb7 : DB :=
  ⟨[exUser], [exStore], [exSchedule],
    [⟨1, 1, 10, 7, ⟨1970, 1, 2⟩, 1, some 500⟩,
      ⟨2, 1, 10, 7, ⟨1970, 1, 9⟩, 0, none⟩],
    [⟨1, 1, 5, ⟨1970, 1, 2⟩, 10, 7, 0, none⟩],
    [⟨5, "pending", none⟩, ⟨9, "pending", none⟩], [], 3, 2, 1⟩

/-- Claim C7 (counterexample to atomicity).  The statements of
`deleteRouteSchedule(1)` run without a transaction; if the second statement
throws after the first (`DELETE FROM tasks WHERE id = 5`) succeeded, the
database is left with task 5 (and, via cascade, its route task) removed but
the schedule and both visit logs still present — neither "all rows removed"
nor "none". -/
theorem deleteRouteSchedule_not_atomic :
    deleteRouteScheduleUpTo 1 exDb7 1 ≠ exDb7 ∧
    deleteRouteScheduleUpTo 1 exDb7 1 ≠ (deleteRouteSchedule 1 exDb7).1 ∧
    (deleteRouteScheduleUpTo 1 exDb7 1).tasks = [⟨9, "pending", none⟩] ∧
    (deleteRouteScheduleUpTo 1 exDb7 1).route_schedules = [exSchedule] ∧
    (deleteRouteScheduleUpTo 1 exDb7 1).visit_logs.length = 2 := by
  decide

/-- Closed-instance witness for `deleteRouteSchedule_cascade`: the unrelated
task 9 survives the cascade delete of schedule 1. -/
theorem deleteRouteSchedule_cascade_witness :
    (⟨9, "pending", none⟩ : Task) ∈ (deleteRouteSchedule 1 exDb7).1.tasks :=
  (deleteRouteSchedule_cascade 1 exDb7).2.2.2.2.2 ⟨9, "pending", none⟩
    (by decide) (by decide)

/-! ## Reconciled weekly projection (`getUserWeeklyScheduleWithVisits`,
`GET /route-schedules/my`) -/

/-- One row of the reconciled projection (the fields the claims mention;
the SQL `SELECT rs.*, s.name as store_name, ...` spreads the schedule row
and joins the store's display name). -/
structure VisitRow where
  schedule_id : Nat
  user_id : Nat
  store_id : Nat
  day_of_week : Nat
  store_name : String
  visit_log_id : Option Nat
  is_completed : Nat
  visit_date : CivilDate
  completed_at : Option Nat
deriving DecidableEq

/-- The per-row evidence lookup
`SELECT id, is_completed, completed_at FROM visit_logs WHERE
route_schedule_id = $1 AND visit_date = $2` followed by the row assembly

```js
result.push({ ...schedule,
  visit_log_id: visitLog[0]?.id || null,
  is_completed: visitLog.length > 0 ? (visitLog[0].is_completed || 0) : 0,
  visit_date: dayInfo.date,
  completed_at: visitLog[0]?.completed_at || null });
```

(`x || 0` is `x` for an integer `x`, since `0 || 0 === 0`; `SERIAL` ids
start at 1, so `id || null` is `id`). -/
def mkVisitRow (db : DB) (s : RouteSchedule) (name : String) (d : CivilDate) :
    VisitRow :=
  match db.visit_logs.filter (vlKey s.id d) with
  | [] => ⟨s.id, s.user_id, s.store_id, s.day_of_week, name, none, 0, d, none⟩
  | v :: _ =>
    ⟨s.id, s.user_id, s.store_id, s.day_of_week, name, some v.id,
      v.is_completed, d, v.completed_at⟩

/-- The schedule query of `getUserWeeklyScheduleWithVisits`:
`SELECT rs.*, s.name ... FROM route_schedules rs JOIN stores s ON s.id =
rs.store_id WHERE rs.user_id = $1 ORDER BY rs.day_of_week, s.name`.  The
inner join drops schedules whose store row is missing (vacuous under
referential integrity); the `ORDER BY` affects only presentation order,
which none of the verified properties depend on, so the model keeps table
order. -/
def userSchedulesJoined (userId : Nat) (db : DB) :
    List (RouteSchedule × String) :=
  (db.route_schedules.filter (fun s => decide (s.user_id = userId))).filterMap
    (fun s => (db.stores.find? (fun st => decide (st.id = s.store_id))).map
      (fun st => (s, st.name)))

/-- Model of `getUserWeeklyScheduleWithVisits(userId)`: for each day of the rolling
7-day window (outer loop), emit one row per schedule of the user whose
`day_of_week` equals the day's weekday, with the evidence lookup of
`mkVisitRow`. -/
def getUserWeeklyScheduleWithVisits (userId nowUtc : Nat) (db : DB) :
    List VisitRow :=
  (weekWindow nowUtc).flatMap (fun day =>
    ((userSchedulesJoined userId db).filter (fun p =>
      decide (p.1.day_of_week = day.dayOfWeek))).map
      (fun p => mkVisitRow db p.1 p.2 day.date))

lemma mkVisitRow_basic (db : DB) (s : RouteSchedule) (name : String)
    (d : CivilDate) :
    (mkVisitRow db s name d).schedule_id = s.id ∧
    (mkVisitRow db s name d).visit_date = d := by
  unfold mkVisitRow
  split <;> exact ⟨rfl, rfl⟩

lemma find?_eq_filter_head {α} (p : α → Bool) (l : List α) :
    l.find? p = (l.filter p).head? := by
  induction l with
  | nil => rfl
  | cons a l ih =>
    cases h : p a
    · rw [List.find?_cons_of_neg _ (by simp [h]),
        List.filter_cons_of_neg (by simp [h]), ih]
    · rw [List.find?_cons_of_pos _ h, List.filter_cons_of_pos h]
      rfl

lemma mkVisitRow_is_completed (db : DB) (s : RouteSchedule) (name : String)
    (d : CivilDate) :
    (mkVisitRow db s name d).is_completed =
      ((db.visit_logs.find? (vlKey s.id d)).map
        (fun v => v.is_completed)).getD 0 := by
  rw [find?_eq_filter_head]
  unfold mkVisitRow
  cases h : db.visit_logs.filter (vlKey s.id d) <;> simp [h]

lemma countP_bind_list {α β} (l : List α) (f : α → List β) (p : β → Bool) :
    (l.flatMap f).countP p = (l.map (fun a => (f a).countP p)).sum := by
  induction l with
  | nil => rfl
  | cons a l ih => simp [List.flatMap_cons, List.countP_append, ih]

lemma sum_map_range_single (n i0 : Nat) (h : i0 < n) (f : Nat → Nat)
    (hf0 : ∀ j, j < n → j ≠ i0 → f j = 0) (hfi : f i0 = 1) :
    ((List.range n).map f).sum = 1 := by
  induction n with
  | zero => omega
  | succ n ih =>
    rw [List.range_succ, List.map_append, List.sum_append]
    by_cases hn : i0 = n
    · have hzero : ((List.range n).map f).sum = 0 := by
        rw [List.sum_eq_zero]
        intro x hx
        obtain ⟨j, hj, rfl⟩ := List.mem_map.mp hx
        exact hf0 j (by
          have := List.mem_range.mp hj
          omega) (by
          have := List.mem_range.mp hj
          omega)
      rw [hzero]
      simp [hn ▸ hfi]
    · have hlt : i0 < n := by omega
      rw [ih hlt (fun j hj hne => hf0 j (by omega) hne)]
      simp [hf0 n (by omega) (fun he => hn he.symm)]

lemma countP_eq_one_of_key {α} (f : α → Nat) (l : List α)
    (hnd : (l.map f).Nodup) (T : α) (hT : T ∈ l) (p : α → Bool)
    (hpT : p T = true) (hp : ∀ x, p x = true → f x = f T) :
    l.countP p = 1 := by
  induction l with
  | nil => cases hT
  | cons s l ih =>
    rw [List.map_cons, List.nodup_cons] at hnd
    rcases List.mem_cons.mp hT with rfl | hTl
    · rw [List.countP_cons, if_pos hpT]
      have hzero : l.countP p = 0 := by
        rw [List.countP_eq_zero]
        intro x hx hpx
        exact hnd.1 (hp x hpx ▸ List.mem_map_of_mem f hx)
      omega
    · have hps : p s = false := by
        cases hps : p s
        · rfl
        · exact absurd ((hp s hps) ▸ List.mem_map_of_mem f hTl) hnd.1
      rw [List.countP_cons, if_neg (by simp [hps]), ih hnd.2 hTl]

/-- Canonical form of the `i`-th window entry (see `weekWindow_getD`). -/
def windowEntry (c i : Nat) : DayInfo :=
  ⟨civilOfDays (c + i), (c + i + 4) % 7⟩

lemma weekWindow_eq_map (nowUtc : Nat) :
    weekWindow nowUtc =
      (List.range 7).map (windowEntry (cairoDays nowUtc)) := by
  unfold weekWindow windowEntry toISODate utcDayOfWeek
  apply List.map_congr_left
  intro i _
  rw [show (nowUtc + cairoOffsetMs + i * msPerDay) / msPerDay =
      cairoDays nowUtc + i from by
    unfold cairoDays
    rw [Nat.add_mul_div_right _ _ (show 0 < msPerDay from by decide)]]

/-- Claim C4.  For a given user, the reconciled projection returned by
`getUserWeeklyScheduleWithVisits` (`GET /route-schedules/my`) contains, for
every schedule template `T` of that user and every day `D` in the 7-day
window with `T.day_of_week` equal to `D`'s day-of-week, exactly one row for
the pair `(T, D)`; that row's `is_completed` is taken from the `visit_logs`
row for `(T.id, D.date)` when such a row exists (`find?`, the first and —
under the schema's `UNIQUE(route_schedule_id, visit_date)` — only match)
and defaults to `0` otherwise.  Hypotheses: every schedule's store exists
(`stores` foreign key) and schedule ids are unique (primary key). -/
theorem getUserWeeklyScheduleWithVisits_complete (userId nowUtc : Nat) (db : DB)
    (hfk : ∀ s ∈ db.route_schedules, ∃ st ∈ db.stores, st.id = s.store_id)
    (hpk : (db.route_schedules.map (fun s => s.id)).Nodup) :
    ∀ T ∈ db.route_schedules, T.user_id = userId →
    ∀ D ∈ weekWindow nowUtc, T.day_of_week = D.dayOfWeek →
      ((getUserWeeklyScheduleWithVisits userId nowUtc db).countP (fun r =>
        decide (r.schedule_id = T.id ∧ r.visit_date = D.date)) = 1) ∧
      (∀ r ∈ getUserWeeklyScheduleWithVisits userId nowUtc db,
        r.schedule_id = T.id → r.visit_date = D.date →
        r.is_completed = ((db.visit_logs.find? (vlKey T.id D.date)).map
          (fun v => v.is_completed)).getD 0) := by
  intro T hT hTu D hD hdow
  constructor
  · -- exactly one row for (T, D)
    obtain ⟨i0, hi0mem, hD0⟩ := List.mem_map.mp (by
      rw [weekWindow_eq_map] at hD
      exact hD)
    have hi0 : i0 < 7 := List.mem_range.mp hi0mem
    unfold getUserWeeklyScheduleWithVisits
    rw [weekWindow_eq_map, countP_bind_list, List.map_map]
    apply sum_map_range_single 7 i0 hi0
    · -- other days contribute no (T, D) row: their dates differ from D.date
      intro j hj hne
      simp only [Function.comp]
      rw [List.countP_eq_zero]
      intro r hr
      obtain ⟨pr, _, rfl⟩ := List.mem_map.mp hr
      have hvd := (mkVisitRow_basic db pr.1 pr.2
        (windowEntry (cairoDays nowUtc) j).date).2
      simp only [decide_eq_true_eq, not_and]
      intro _ hdate
      rw [hvd] at hdate
      have hDdate : D.date = civilOfDays (cairoDays nowUtc + i0) := by
        rw [← hD0]
        rfl
      rw [hDdate] at hdate
      have := civilOfDays_injective (show civilOfDays (cairoDays nowUtc + j) =
        civilOfDays (cairoDays nowUtc + i0) from hdate)
      omega
    · -- day D contributes exactly one row, via the unique schedule id
      simp only [Function.comp]
      rw [hD0, List.countP_map, List.countP_filter]
      unfold userSchedulesJoined
      rw [List.countP_filterMap, List.countP_filter]
      rw [List.countP_congr (q := fun s =>
        (decide (s.id = T.id) && decide (s.day_of_week = D.dayOfWeek)) &&
          decide (s.user_id = userId)) ?_]
      · exact countP_eq_one_of_key (fun s => s.id) db.route_schedules hpk T hT _
          (by simp [hdow, hTu]) (fun x hx => by
            simp only [Bool.and_eq_true, decide_eq_true_eq] at hx
            exact hx.1.1)
      · intro s hs
        obtain ⟨st, hst, hstid⟩ := hfk s hs
        have hfind : (db.stores.find? (fun st => decide (st.id = s.store_id))).isSome :=
          List.find?_isSome.mpr ⟨st, hst, by simp [hstid]⟩
        obtain ⟨st2, hst2⟩ := Option.isSome_iff_exists.mp hfind
        rw [hst2]
        have hb := mkVisitRow_basic db s st2.name D.date
        simp only [Option.map_some', Option.getD_some, Function.comp,
          hb.1, hb.2, Bool.and_eq_true, decide_eq_true_eq]
        tauto
  · -- the is_completed of the (T, D) row comes from the evidence lookup
    intro r hr hrs hrd
    obtain ⟨day, _, hrday⟩ := List.mem_flatMap.mp hr
    obtain ⟨pr, _, rfl⟩ := List.mem_map.mp hrday
    have hb := mkVisitRow_basic db pr.1 pr.2 day.date
    have hic := mkVisitRow_is_completed db pr.1 pr.2 day.date
    rw [hb.1] at hrs
    rw [hb.2] at hrd
    rw [hic, hrs, hrd]

/-- The day the rolling window pairs with Fridays when `nowUtc = 0`
(1970-01-01 was a Thursday, so Friday is window index 1: 1970-01-02). -/
def exFriday : DayInfo := ⟨⟨1970, 1, 2⟩, 5⟩

/-- Closed-instance witness for `getUserWeeklyScheduleWithVisits_complete`:
at `nowUtc = 0`, the projection for user 7 over `exDb3` has exactly one row
for (schedule 1, 1970-01-02). -/
theorem getUserWeeklyScheduleWithVisits_complete_witness :
    (getUserWeeklyScheduleWithVisits 7 0 exDb3).countP (fun r =>
      decide (r.schedule_id = exSchedule.id ∧ r.visit_date = exFriday.date)) = 1 :=
  (getUserWeeklyScheduleWithVisits_complete 7 0 exDb3
    (by decide) (by decide) exSchedule (by decide) rfl exFriday
    (by decide) rfl).1

/-! ## The competing read path (`getRouteSchedules`, `GET /route-schedules`)

`db-postgres.js` lines 1718-1784:

```js
const now = new Date();
const today = new Date(now.getFullYear(), now.getMonth(), now.getDate());
const todayDayOfWeek = today.getDay();
for (let dayOfWeek = 0; dayOfWeek < 7; dayOfWeek++) {
  let daysUntil = (dayOfWeek - todayDayOfWeek + 7) % 7;
  const d = new Date(today);
  d.setDate(today.getDate() + daysUntil);
  dayDates[dayOfWeek] = d.toISOString().split('T')[0];
}
```

`getFullYear`/`getMonth`/`getDate`/`getDay` read LOCAL (host-timezone)
components, `new Date(y, m, d)` builds local midnight, `setDate` adds days
in local time (no DST transitions at a fixed offset), while `toISOString`
formats the instant in UTC.  With the host `hostOffMs` milliseconds east of
UTC: the local civil day number of the instant `now` is
`⌊(now + hostOffMs) / msPerDay⌋` (`Int.ediv` is floor division for a
positive divisor, as ECMAScript `Day(t)`); local midnight of that day is
the instant `localDays * msPerDay − hostOffMs`; `today.getDay()` is the
weekday of the local day number; and the produced ISO date string is the
UTC civil date of `localMidnight + daysUntil * msPerDay`. -/

/-- The instant whose `toISOString` date `getRouteSchedules` assigns to
schedules with weekday `dow`.  `/` and `%` on `Int` are
`Int.ediv`/`Int.emod` (Euclidean), which for the positive divisors used
here coincide with ECMAScript's floor division `Day(t)` and the
always-non-negative modulo of `WeekDay(t)`; the one truncated JavaScript
`%` in this code, `(dayOfWeek - todayDayOfWeek + 7) % 7`, acts on a
non-negative operand, where truncated and Euclidean remainder agree. -/
def rsVisitDateMs (nowUtc hostOffMs : Int) (dow : Nat) : Int :=
  let localDays := (nowUtc + hostOffMs) / 86400000
  let todayDOW := (localDays + 4) % 7
  let daysUntil := ((dow : Int) - todayDOW + 7) % 7
  localDays * 86400000 - hostOffMs + daysUntil * 86400000

/-- The `visit_date` string `getRouteSchedules` assigns to weekday `dow`
(`d.toISOString().split('T')[0]`).  `toNat` is exact for instants on or
after 1970-01-01; all theorems below stay in that range. -/
def rsDayDate (nowUtc hostOffMs : Int) (dow : Nat) : CivilDate :=
  civilOfDays ((rsVisitDateMs nowUtc hostOffMs dow) / 86400000).toNat

/-- Model of `getRouteSchedules(userId)`: join users and stores, optionally filter by
user, and attach `visit_date` (per weekday, `rsDayDate`) plus the
`visit_logs` evidence lookup — the same row assembly as `mkVisitRow`.  The
`ORDER BY rs.user_id, rs.day_of_week, s.name` affects only presentation
order, which none of the verified properties depend on, so the model keeps
table order. -/
def getRouteSchedules (userId : Option Nat) (nowUtc hostOffMs : Int)
    (db : DB) : List VisitRow :=
  ((db.route_schedules.filter (fun s =>
      match userId with
      | some u => decide (s.user_id = u)
      | none => true)).filterMap (fun s =>
        (db.users.find? (fun u => decide (u.id = s.user_id))).bind (fun _ =>
          (db.stores.find? (fun st => decide (st.id = s.store_id))).map
            (fun st => (s, st.name))))).map
    (fun p => mkVisitRow db p.1 p.2 (rsDayDate nowUtc hostOffMs p.1.day_of_week))

/-- The `/route-schedules/my` read path, with an explicit host-offset
parameter.  The source (`getUserWeeklyScheduleWithVisits`) uses only
`getTime`, `toISOString`, `getUTCDay`, `getUTCDate` and `setUTCDate`, whose
ECMAScript semantics never consult the host timezone, so the model ignores
the parameter. -/
def getUserWeeklyScheduleWithVisitsHost (userId nowUtc : Nat)
    (hostOffMs : Int) (db : DB) : List VisitRow :=
  getUserWeeklyScheduleWithVisits userId nowUtc db

/-- C8/C10 scenario: user 7's Friday schedule at store 10 with a completed
visit log on Friday 1970-01-02. -/
def exDb8 : DB :=
  ⟨[exUser], [exStore], [exSchedule],
    [⟨1, 1, 10, 7, ⟨1970, 1, 2⟩, 1, some 500⟩], [], [], [], 2, 2, 1⟩

/-- Claim C8 (counterexample).  The path `getRouteSchedules` is NOT independent of the
host timezone: at the same UTC instant 1970-01-02T01:00:00Z (= 90000000 ms)
a host at UTC and a host at UTC+2 assign different `visit_date`s to the
same schedule (1970-01-02 vs 1970-01-01 — `new Date(y, m, d)` is local
midnight, which `toISOString` renders as the previous UTC day on an
east-of-UTC host). -/
theorem getRouteSchedules_host_tz_dependent :
    (getRouteSchedules (some 7) 90000000 0 exDb8).map
      (fun r => (r.schedule_id, r.visit_date)) ≠
    (getRouteSchedules (some 7) 90000000 7200000 exDb8).map
      (fun r => (r.schedule_id, r.visit_date)) := by
  decide

/-- Claim C8 (amended).  The `/route-schedules/my` read path is deterministic
and host-timezone independent — its projection is the same under any two
host offsets — while `getRouteSchedules` is not: at the instant
90000000 ms the host offsets 0 and +2h yield different projections. -/
theorem readPaths_host_independence :
    (∀ (userId nowUtc : Nat) (off1 off2 : Int) (db : DB),
      getUserWeeklyScheduleWithVisitsHost userId nowUtc off1 db =
        getUserWeeklyScheduleWithVisitsHost userId nowUtc off2 db) ∧
    getRouteSchedules (some 7) 90000000 0 exDb8 ≠
      getRouteSchedules (some 7) 90000000 7200000 exDb8 :=
  ⟨fun _ _ _ _ _ => rfl, by decide⟩

/-- Claim C10 (counterexample).  With the host timezone equal to the business
timezone (UTC+2): at 1970-01-02T01:00:00Z, `getRouteSchedules` emits the
triple (schedule 1, 1970-01-01, not completed) while
`getUserWeeklyScheduleWithVisits` pairs schedule 1 with 1970-01-02 and its
completed log — the two projections do not contain the same set of
(schedule id, visit_date, is_completed) triples. -/
theorem getRouteSchedules_weekly_disagree :
    ((1, (⟨1970, 1, 1⟩ : CivilDate), 0) ∈
      (getRouteSchedules (some 7) 90000000 7200000 exDb8).map
        (fun r => (r.schedule_id, r.visit_date, r.is_completed))) ∧
    ((1, (⟨1970, 1, 1⟩ : CivilDate), 0) ∉
      (getUserWeeklyScheduleWithVisits 7 90000000 exDb8).map
        (fun r => (r.schedule_id, r.visit_date, r.is_completed))) := by
  decide

lemma window_slot_dow (c dow : Nat) (hdow : dow < 7) :
    (c + (dow + 7 - (c + 4) % 7) % 7 + 4) % 7 = dow := by
  omega

lemma window_slot_unique (c dow j : Nat) (hdow : dow < 7) (hj : j < 7)
    (h : (c + j + 4) % 7 = dow) : j = (dow + 7 - (c + 4) % 7) % 7 := by
  omega

lemma cairoDays_pos (now : Nat) (hnow : msPerDay ≤ now) : 1 ≤ cairoDays now := by
  have hnow' : 86400000 ≤ now := hnow
  show 1 ≤ (now + 7200000) / 86400000
  omega

lemma rsVisitDateMs_days (now dow : Nat) (hdow : dow < 7)
    (hnow : msPerDay ≤ now) :
    ((rsVisitDateMs (now : Int) 7200000 dow) / 86400000).toNat =
      cairoDays now + (dow + 7 - (cairoDays now + 4) % 7) % 7 - 1 := by
  have hnow' : 86400000 ≤ now := hnow
  clear hnow
  have hA : (rsVisitDateMs (now : Int) 7200000 dow) / 86400000 =
      ((cairoDays now + (dow + 7 - (cairoDays now + 4) % 7) % 7 : Nat) : Int) - 1 := by
    show (((now : Int) + 7200000) / 86400000 * 86400000 - 7200000 +
        ((dow : Int) - (((now : Int) + 7200000) / 86400000 + 4) % 7 + 7) % 7 *
          86400000) / 86400000 =
      (((now + 7200000) / 86400000 +
        (dow + 7 - ((now + 7200000) / 86400000 + 4) % 7) % 7 : Nat) : Int) - 1
    omega
  have hpos : 1 ≤ cairoDays now + (dow + 7 - (cairoDays now + 4) % 7) % 7 := by
    have := cairoDays_pos now hnow'
    omega
  clear hnow' hdow
  generalize hN : cairoDays now + (dow + 7 - (cairoDays now + 4) % 7) % 7 = N at hA hpos
  rw [hA]
  omega

/-- Claim C10 (amended).  With the host timezone equal to the business
timezone (UTC+2), the two read paths pair each weekday with the SAME unique
window slot (today counted as day 0, not pushed to next week), but
`getRouteSchedules` assigns the calendar day immediately BEFORE the window
date `getUserWeeklyScheduleWithVisits` uses: the unique window entry with
weekday `dow` carries date `nextDay (rsDayDate nowUtc (+2h) dow)`.  Hence
the two projections read different `visit_logs` rows and generally
disagree. -/
theorem getRouteSchedules_assigns_previous_day (now : Nat)
    (hnow : msPerDay ≤ now) (dow : Nat) (hdow : dow < 7) :
    ∃ i, i < 7 ∧
      ((weekWindow now).getD i dayInfo0).dayOfWeek = dow ∧
      ((weekWindow now).getD i dayInfo0).date =
        nextDay (rsDayDate (now : Int) 7200000 dow) ∧
      ∀ j, j < 7 → ((weekWindow now).getD j dayInfo0).dayOfWeek = dow →
        j = (dow + 7 - (cairoDays now + 4) % 7) % 7 := by
  refine ⟨(dow + 7 - (cairoDays now + 4) % 7) % 7, by omega, ?_, ?_, ?_⟩
  · rw [weekWindow_getD now _ (by omega)]
    show (cairoDays now + (dow + 7 - (cairoDays now + 4) % 7) % 7 + 4) % 7 = dow
    exact window_slot_dow (cairoDays now) dow hdow
  · have hdays : ((rsVisitDateMs (now : Int) 7200000 dow) / 86400000).toNat =
        cairoDays now + (dow + 7 - (cairoDays now + 4) % 7) % 7 - 1 :=
      rsVisitDateMs_days now dow hdow hnow
    have hc : 1 ≤ cairoDays now := cairoDays_pos now hnow
    rw [weekWindow_getD now _ (by omega)]
    show civilOfDays (cairoDays now + (dow + 7 - (cairoDays now + 4) % 7) % 7) =
      nextDay (rsDayDate (now : Int) 7200000 dow)
    unfold rsDayDate
    rw [hdays]
    have hE : cairoDays now + (dow + 7 - (cairoDays now + 4) % 7) % 7 =
        (cairoDays now + (dow + 7 - (cairoDays now + 4) % 7) % 7 - 1) + 1 := by
      clear hnow hdays
      omega
    exact (congrArg civilOfDays hE).trans (civilOfDays_succ _)
  · intro j hj hdowj
    rw [weekWindow_getD now _ hj] at hdowj
    have hj7 : (cairoDays now + j + 4) % 7 = dow := hdowj
    exact window_slot_unique (cairoDays now) dow j hdow hj hj7

/-- Closed-instance witness for `getRouteSchedules_assigns_previous_day`:
at 1970-01-02T01:00:00Z the Friday window slot (index 0, 1970-01-02) is the
calendar successor of the date `getRouteSchedules` assigns to Fridays under
a UTC+2 host (1970-01-01). -/
theorem getRouteSchedules_assigns_previous_day_witness :
    ∃ i, i < 7 ∧
      ((weekWindow 90000000).getD i dayInfo0).dayOfWeek = 5 ∧
      ((weekWindow 90000000).getD i dayInfo0).date =
        nextDay (rsDayDate (90000000 : Int) 7200000 5) ∧
      ∀ j, j < 7 → ((weekWindow 90000000).getD j dayInfo0).dayOfWeek = 5 →
        j = (5 + 7 - (cairoDays 90000000 + 4) % 7) % 7 :=
  getRouteSchedules_assigns_previous_day 90000000 (by decide) 5 (by decide)

end Lagoon
